import Mathlib

/-!
# Verification of the watchlist-config-generator symbology compiler and extractor

Shallow embedding of `src/watchlist_config_generator/watchlist_config_generator.py`.

The Python module builds regular-expression pattern strings from instrument
symbols, combines them, and applies them line by line to decompressed COREREF
reference files.  The embedding models:

* the subset of the regex language the module emits (literal characters,
  escaped backslash and pipe, `.`, character classes, bounded repetition
  `{m,n}`, alternation, grouping, `^`, `\b`) as an AST `Regex`, with an
  executable matcher `ends` that enumerates match end positions in Python's
  backtracking order (greedy bounded repetition, left alternative first);
* each `create_*_regex` function as a Lean function producing the `Regex`
  denotation of the exact pattern string the Python code builds.  Python
  failure modes are explicit: an `IndexError` from positional segment access
  and the `TypeError` raised by `'|'.join` on a `None` entry are values of
  `PyError`; `sys.exit` is the `Fail.exit` outcome carrying the printed
  message.

Interpolated fragments (instrument roots, maturities, strikes, source ids)
are inserted into the pattern strings verbatim, unescaped.  `pyFragment`
interprets such a fragment the way Python's `re` reads it: `.` matches any
character, every other character of the symbology (letters, digits, `:`,
`@`, `-`) matches itself.  Fragments never contain a backslash because they
are produced by `split("\\")`.
-/

namespace Watchlist

/-- A character class given as a union of inclusive ranges
(a singleton character is the range `(c, c)`). -/
def inCls (ranges : List (Char × Char)) (c : Char) : Bool :=
  ranges.any (fun p => p.1 ≤ c && c ≤ p.2)

/-- AST of the regex subset emitted by the module. -/
inductive Regex where
  | eps
  | char (c : Char)
  | anyChar
  | cls (ranges : List (Char × Char))
  | seq (a b : Regex)
  | alt (a b : Regex)
  | group (a : Regex)
  | bol
  | wordB
deriving DecidableEq, Repr

/-- Python `\w` over the ASCII lines the module consumes. -/
def isWordChar (c : Char) : Bool := c.isAlpha || c.isDigit || c = '_'

/-- Whether position `i` of the line holds a word character. -/
def atWord (cs : List Char) (i : Nat) : Bool :=
  match cs[i]? with
  | some c => isWordChar c
  | none => false

/-- Python `\b`: a word boundary at position `i` (string edges count as
non-word context). -/
def boundaryB (cs : List Char) (i : Nat) : Bool :=
  (if i = 0 then false else atWord cs (i - 1)) != atWord cs i

/-- All end positions of matches of `r` starting at position `i` of line
`cs`, in the order Python's backtracking engine explores them
(left alternative first, sequential composition depth first). -/
def ends (cs : List Char) : Regex → Nat → List Nat
  | .eps, i => [i]
  | .char c, i =>
    match cs[i]? with
    | some d => if d = c then [i + 1] else []
    | none => []
  | .anyChar, i => if i < cs.length then [i + 1] else []
  | .cls rs, i =>
    match cs[i]? with
    | some d => if inCls rs d then [i + 1] else []
    | none => []
  | .seq a b, i => (ends cs a i).flatMap (fun j => ends cs b j)
  | .alt a b, i => ends cs a i ++ ends cs b i
  | .group a, i => ends cs a i
  | .bol, i => if i = 0 then [i] else []
  | .wordB, i => if boundaryB cs i then [i] else []

/-- `r` matched exactly `n` times. -/
def repExact (r : Regex) : Nat → Regex
  | 0 => .eps
  | n + 1 => .seq r (repExact r n)

/-- `r` matched at most `n` times, greedily (more repetitions tried first),
modelling Python's greedy `{0,n}`. -/
def repUpTo (r : Regex) : Nat → Regex
  | 0 => .eps
  | n + 1 => .alt (.seq r (repUpTo r n)) .eps

/-- Python's greedy bounded repetition `r{lo,hi}`. -/
def repRange (r : Regex) (lo hi : Nat) : Regex :=
  .seq (repExact r lo) (repUpTo r (hi - lo))

/-- Whether some match of `r` starts at position `i` of `s`. -/
def matchesAtB (r : Regex) (s : String) (i : Nat) : Bool :=
  !(ends s.data r i).isEmpty

/-- Python `re.search(r, s) is not None`: a match starting somewhere in `s`
(including an empty match at the very end). -/
def searchB (r : Regex) (s : String) : Bool :=
  (List.range (s.length + 1)).any (fun i => matchesAtB r s i)

/-- Ascending scan of the start positions `i, i+1, ...` (with explicit
fuel), as Python's `re.search` tries them: the result is the first start
position admitting a match, paired with the end position the backtracking
engine finds first there. -/
def scanFrom (cs : List Char) (r : Regex) : Nat → Nat → Option (Nat × Nat)
  | _, 0 => none
  | i, fuel + 1 =>
    match ends cs r i with
    | j :: _ => some (i, j)
    | [] => scanFrom cs r (i + 1) fuel

/-- Span `(start, end)` of the match Python's `re.search` returns: the
leftmost start position admitting a match, with the end position the
backtracking engine finds first there. -/
def firstSpan (r : Regex) (s : String) : Option (Nat × Nat) :=
  scanFrom s.data r 0 (s.length + 1)

/-- The substring of `s` from position `i` (inclusive) to `j` (exclusive). -/
def sliceStr (s : String) (i j : Nat) : String :=
  String.mk ((s.data.drop i).take (j - i))

/-- Python `re.search(r, s)[0]`: the text of the first match, if any. -/
def firstMatchStr (r : Regex) (s : String) : Option String :=
  (firstSpan r s).map (fun pr => sliceStr s pr.1 pr.2)

/-! ## Denotation of interpolated fragments

The Python code interpolates instrument-symbol fragments into raw pattern
strings without `re.escape`.  `re` then reads `.` as the any-character
metacharacter and the plain symbology characters as literals. -/

/-- One fragment character as Python's `re` reads it when interpolated
unescaped into a pattern. -/
def fragChar (c : Char) : Regex :=
  if c = '.' then .anyChar else .char c

/-- A whole interpolated fragment. -/
def fragSeq : List Char → Regex
  | [] => .eps
  | c :: cs => .seq (fragChar c) (fragSeq cs)

/-- Denotation of an interpolated fragment string. -/
def pyFragment (s : String) : Regex := fragSeq s.data

/-- Right-nested sequential composition of a list of regexes. -/
def seqList : List Regex → Regex
  | [] => .eps
  | r :: rs => .seq r (seqList rs)

/-! ## String primitives

Python's `str.startswith`, `str.endswith`, `str.split` (with the
one-character separators the module uses) and string comparison, defined
by structural recursion over the character list. -/

/-- `s.startswith(c)` for a one-character prefix. -/
def startsWithChar (s : String) (c : Char) : Bool :=
  s.data.head? = some c

/-- `s.endswith(c)` for a one-character suffix. -/
def endsWithChar (s : String) (c : Char) : Bool :=
  s.data.getLast? = some c

/-- `str.split(sep)` for a one-character separator: always at least one
(possibly empty) piece. -/
def splitOnChar (sep : Char) : List Char → List (List Char)
  | [] => [[]]
  | c :: cs =>
    match splitOnChar sep cs with
    | h :: t => if c = sep then [] :: h :: t else (c :: h) :: t
    | [] => [[c]]

/-- `str.split(sep)` on strings. -/
def splitStr (sep : Char) (s : String) : List String :=
  (splitOnChar sep s.data).map String.mk

/-- Python string `<`: lexicographic comparison by code points. -/
def listLt : List Char → List Char → Bool
  | [], [] => false
  | [], _ :: _ => true
  | _ :: _, [] => false
  | a :: as, b :: bs => if a < b then true else if b < a then false else listLt as bs

/-- Python string `<` on `String`. -/
def strLtB (a b : String) : Bool := listLt a.data b.data

/-! ## The pattern compilers (`create_*_regex`)

Each definition mirrors the Python raw f-string template, with the Python
failure modes made explicit. -/

/-- Python exceptions the module can raise while compiling patterns, plus
the `UnsupportedInstrumentType` error hypothesised by the specification
(which the code never raises). -/
inductive PyError where
  | indexError
  | typeError
  | unsupportedInstrumentType
deriving DecidableEq, Repr

/-- `[A-Z]` -/
def clsUpper : List (Char × Char) := [('A', 'Z')]

/-- `[0-9]` -/
def clsDigit : List (Char × Char) := [('0', '9')]

/-- `[a-zA-Z0-9]` -/
def clsAlnum : List (Char × Char) := [('a', 'z'), ('A', 'Z'), ('0', '9')]

/-- `[0-9.]` -/
def clsDigitDot : List (Char × Char) := [('0', '9'), ('.', '.')]

/-- `[A-Z0-9]` -/
def clsUpperDigit : List (Char × Char) := [('A', 'Z'), ('0', '9')]

/-- `create_equity_regex`: the template
`rf"\b{instrument_symbol}\b-{0,1}[A-Z]{0,3}@{0,1}[a-zA-Z0-9]{0,10}"`. -/
def create_equity_regex (instrument_symbol : String) : Regex :=
  seqList [.wordB, pyFragment instrument_symbol, .wordB,
    repRange (.char '-') 0 1, repRange (.cls clsUpper) 0 3,
    repRange (.char '@') 0 1, repRange (.cls clsAlnum) 0 10]

/-- `create_futures_regex`: a non-wildcard symbol is split on `\` and the
first two segments rebuilt as `rf"{c0}\\{c1}"` (raising `IndexError` when
there is no second segment); a symbol ending in `*` yields
`rf"{root}\\[A-Z][0-9]{2,4}"` from the first segment. -/
def create_futures_regex (input_symbol : String) : Except PyError Regex :=
  if endsWithChar input_symbol '*' = false then
    match splitStr '\\' input_symbol with
    | c0 :: c1 :: _ =>
      .ok (seqList [pyFragment c0, .char '\\', pyFragment c1])
    | _ => .error .indexError
  else
    .ok (seqList [pyFragment ((splitStr '\\' input_symbol).headD ""),
      .char '\\', .cls clsUpper, repRange (.cls clsDigit) 2 4])

/-- `create_options_regex`: a non-wildcard symbol is rebuilt from its first
three segments as `rf"{c0}\\{c1}\\{c2}"` (raising `IndexError` with fewer
than three); a `*`-terminated symbol with exactly two segments yields
`rf"{c0}\\[A-Z][0-9]{2,4}\\[0-9.]{1,10}"`, with exactly three
`rf"{c0}\\{c1}\\[0-9.]{1,10}"`, and with any other segment count the
function falls through and returns Python `None`. -/
def create_options_regex (input_symbol : String) : Except PyError (Option Regex) :=
  if endsWithChar input_symbol '*' = false then
    match splitStr '\\' input_symbol with
    | c0 :: c1 :: c2 :: _ =>
      .ok (some (seqList [pyFragment c0, .char '\\', pyFragment c1,
        .char '\\', pyFragment c2]))
    | _ => .error .indexError
  else
    match splitStr '\\' input_symbol with
    | [c0, _] =>
      .ok (some (seqList [pyFragment c0, .char '\\', .cls clsUpper,
        repRange (.cls clsDigit) 2 4, .char '\\',
        repRange (.cls clsDigitDot) 1 10]))
    | [c0, c1, _] =>
      .ok (some (seqList [pyFragment c0, .char '\\', pyFragment c1,
        .char '\\', repRange (.cls clsDigitDot) 1 10]))
    | _ => .ok none

/-- `create_fixed_income_regex`: the template
`rf"\b{input_symbol}\b\\{0,1}D{0,1}@{0,1}[a-zA-Z0-9]{1,10}"`. -/
def create_fixed_income_regex (input_symbol : String) : Regex :=
  seqList [.wordB, pyFragment input_symbol, .wordB,
    repRange (.char '\\') 0 1, repRange (.char 'D') 0 1,
    repRange (.char '@') 0 1, repRange (.cls clsAlnum) 1 10]

/-- `create_forwards_regex`: like futures, with generic-term matcher
`[A-Z0-9]{2,4}`. -/
def create_forwards_regex (input_symbol : String) : Except PyError Regex :=
  if endsWithChar input_symbol '*' = false then
    match splitStr '\\' input_symbol with
    | c0 :: c1 :: _ =>
      .ok (seqList [pyFragment c0, .char '\\', pyFragment c1])
    | _ => .error .indexError
  else
    .ok (seqList [pyFragment ((splitStr '\\' input_symbol).headD ""),
      .char '\\', repRange (.cls clsUpperDigit) 2 4])

/-- `create_index_regex`: the template `rf"\b{input_symbol}\b"`. -/
def create_index_regex (input_symbol : String) : Regex :=
  seqList [.wordB, pyFragment input_symbol, .wordB]

/-- `create_specific_instrument_regex`: dispatch on the symbol's leading
character through the `startswith` chain `B, E, F, I, O, R`.  A symbol
matching none of the six arms falls off the end of the `if`/`elif` chain,
so the Python function implicitly returns `None` (`.ok none` here). -/
def create_specific_instrument_regex (input_symbol : String) :
    Except PyError (Option Regex) :=
  if startsWithChar input_symbol 'B' then
    .ok (some (create_fixed_income_regex input_symbol))
  else if startsWithChar input_symbol 'E' then
    .ok (some (create_equity_regex input_symbol))
  else if startsWithChar input_symbol 'F' then
    (create_futures_regex input_symbol).map some
  else if startsWithChar input_symbol 'I' then
    .ok (some (create_index_regex input_symbol))
  else if startsWithChar input_symbol 'O' then
    create_options_regex input_symbol
  else if startsWithChar input_symbol 'R' then
    (create_forwards_regex input_symbol).map some
  else
    .ok none

/-- Python `'|'.join`: right-nested alternation of the listed patterns,
`eps` for the empty list (joining zero strings gives the empty pattern). -/
def altChain : List Regex → Regex
  | [] => .eps
  | [r] => r
  | r :: rs => .alt r (altChain rs)

/-- The list comprehension
`[create_specific_instrument_regex(name) for name in instrument_symbols]`:
evaluated left to right, propagating the first exception. -/
def compileEach : List String → Except PyError (List (Option Regex))
  | [] => .ok []
  | s :: rest =>
    match create_specific_instrument_regex s with
    | .error e => .error e
    | .ok o =>
      match compileEach rest with
      | .error e => .error e
      | .ok os => .ok (o :: os)

/-- Python `'|'.join` applied to a list that may hold `None` entries:
`str.join` raises `TypeError` at the first non-string entry. -/
def joinOpts : List (Option Regex) → Option (List Regex)
  | [] => some []
  | none :: _ => none
  | some r :: rest => (joinOpts rest).map (fun rs => r :: rs)

/-- `create_instrument_level_pattern`: compiles every symbol through
`create_specific_instrument_regex` and then evaluates
`rf"({'|'.join(...)})"`.  When some symbol compiled to `None`, `str.join`
raises `TypeError`; otherwise the result is the parenthesised alternation
of the per-symbol patterns in input order. -/
def create_instrument_level_pattern (instrument_symbols : List String) :
    Except PyError Regex :=
  match compileEach instrument_symbols with
  | .error e => .error e
  | .ok opts =>
    match joinOpts opts with
    | none => .error .typeError
    | some rs => .ok (.group (altChain rs))

/-- `create_dc_message_level_pattern`: the template
`rf"^DC\|{source_id}\|{create_instrument_level_pattern(...)}"`, with the
source id interpolated verbatim. -/
def create_dc_message_level_pattern (source_id : String)
    (instrument_symbols : List String) : Except PyError Regex :=
  (create_instrument_level_pattern instrument_symbols).map (fun g =>
    seqList [.bol, .char 'D', .char 'C', .char '|', pyFragment source_id,
      .char '|', g])

/-! ## Paths, the extractor and the batch orchestrator

Files are modelled as a path string together with the outcome of opening
and bz2-decompressing them: `.ok lines` for the decoded text lines, or
`.error ()` for the `OSError` that `bz2` raises on a missing, unreadable,
truncated or non-bz2 file. -/

/-- `pathlib.Path.name`: the final path component. -/
def pathName (p : String) : String :=
  (splitStr '/' p).getLastD p

/-- `pathlib.Path.suffix`: the final component's last extension.  CPython
takes the substring from the last `.` of the name provided that dot is
neither the first nor the last character of the name, and returns the
empty string otherwise. -/
def pathSuffix (p : String) : String :=
  let n := pathName p
  let dots := (List.range n.length).filter (fun i => n.data[i]? = some '.')
  match dots.getLast? with
  | some i => if 0 < i ∧ i < n.length - 1 then String.mk (n.data.drop i) else ""
  | none => ""

/-- `get_source_id_from_file_path`: split the file name on `.`, keep the
stem, split it on `_` and take component `[1]` (an `IndexError` when the
stem has no underscore). -/
def get_source_id_from_file_path (file_path : String) : Except PyError String :=
  match splitStr '_' ((splitStr '.' (pathName file_path)).headD "") with
  | _ :: source_id :: _ => .ok source_id
  | _ => .error .indexError

/-- `retrieve_instruments`: Python `dict.get`, `None` when the source id
is absent.  The source mapping is an association list with the insertion
order of the JSON configuration. -/
def retrieve_instruments (source_id : String)
    (source_symbols_dictionary : List (String × List String)) :
    Option (List String) :=
  source_symbols_dictionary.lookup source_id

/-- Terminal outcomes of a run: Python `sys.exit(msg)` or an uncaught
exception. -/
inductive Fail where
  | exit (msg : String)
  | raised (e : PyError)
deriving DecidableEq, Repr

/-- The exact `sys.exit` message of `retrieve_source_symbol_pairs`. -/
def exitMessage (path : String) : String :=
  "Process finished with exit code 1\nAttempted to process: " ++ path ++
    "\nThe file has extension:'" ++ pathSuffix path ++ "'. Expected:'.bz2'"

/-- One iteration of the extractor loop: if the line matches the
message-level pattern, evaluate the tuple
`(get_source_id_from_file_path(path), re.search(instrument_pattern, line)[0])`
— the source-id computation can raise `IndexError`, and subscripting a
failed search raises `TypeError`. -/
def extractLine (path : String) (mp ip : Regex) (line : String) :
    Except Fail (Option (String × String)) :=
  if searchB mp line then
    match get_source_id_from_file_path path with
    | .error e => .error (.raised e)
    | .ok source_id =>
      match firstMatchStr ip line with
      | none => .error (.raised .typeError)
      | some m => .ok (some (source_id, m))
  else
    .ok none

/-- The extractor loop over the decoded lines, in file order. -/
def collectLines (path : String) (mp ip : Regex) :
    List String → Except Fail (List (String × String))
  | [] => .ok []
  | line :: rest =>
    match extractLine path mp ip line with
    | .error e => .error e
    | .ok head =>
      match collectLines path mp ip rest with
      | .error e => .error e
      | .ok tail =>
        match head with
        | none => .ok tail
        | some pr => .ok (pr :: tail)

/-- `retrieve_source_symbol_pairs`: on an `OSError` from opening or
decompressing the file, the `except` clause calls `sys.exit` with
`exitMessage` and the accumulated pairs are discarded; otherwise the loop
appends one pair per line matching the message-level pattern. -/
def retrieve_source_symbol_pairs (path_to_coreref_file : String)
    (content : Except Unit (List String)) (message_level_pattern : Regex)
    (instrument_level_pattern : Regex) :
    Except Fail (List (String × String)) :=
  match content with
  | .error _ => .error (.exit (exitMessage path_to_coreref_file))
  | .ok lines =>
    collectLines path_to_coreref_file message_level_pattern
      instrument_level_pattern lines

/-- `process_coreref_file`: derive the source id from the path, look up
its symbols (iterating a `None` list raises `TypeError`), build the two
patterns and run the extractor. -/
def process_coreref_file (path : String) (content : Except Unit (List String))
    (source_symbols_dictionary : List (String × List String)) :
    Except Fail (List (String × String)) :=
  match get_source_id_from_file_path path with
  | .error e => .error (.raised e)
  | .ok source_id =>
    match retrieve_instruments source_id source_symbols_dictionary with
    | none => .error (.raised .typeError)
    | some symbols =>
      match create_dc_message_level_pattern source_id symbols with
      | .error e => .error (.raised e)
      | .ok mp =>
        match create_instrument_level_pattern symbols with
        | .error e => .error (.raised e)
        | .ok ip => retrieve_source_symbol_pairs path content mp ip

/-- Stable ascending insertion by the source-id component: a pair is
placed before the first element whose key is not smaller, so earlier
elements precede later ones with an equal key. -/
def insertPair (x : String × String) :
    List (String × String) → List (String × String)
  | [] => [x]
  | y :: ys => if strLtB y.1 x.1 then y :: insertPair x ys else x :: y :: ys

/-- Python `list.sort(key=lambda x: x[0])`: the stable ascending
reordering by the source-id string. -/
def sortPairs (l : List (String × String)) : List (String × String) :=
  l.foldr insertPair []

/-- The aggregation loop of `process_all_coreref_files` before the final
sort: files whose source id is not a key of the mapping are skipped
silently, the others contribute their pairs in file order. -/
def collectPairs (source_symbols_dictionary : List (String × List String)) :
    List (String × Except Unit (List String)) →
    Except Fail (List (String × String))
  | [] => .ok []
  | (path, content) :: rest =>
    match get_source_id_from_file_path path with
    | .error e => .error (.raised e)
    | .ok source_id =>
      if (retrieve_instruments source_id source_symbols_dictionary).isNone then
        collectPairs source_symbols_dictionary rest
      else
        match process_coreref_file path content source_symbols_dictionary with
        | .error e => .error e
        | .ok pairs =>
          match collectPairs source_symbols_dictionary rest with
          | .error e => .error e
          | .ok more => .ok (pairs ++ more)

/-- `process_all_coreref_files`: aggregate over all files, then stably
sort the result by source id. -/
def process_all_coreref_files
    (coreref_files : List (String × Except Unit (List String)))
    (source_symbols_dictionary : List (String × List String)) :
    Except Fail (List (String × String)) :=
  (collectPairs source_symbols_dictionary coreref_files).map sortPairs

/-! ## Auxiliary predicates used to state the claims -/

/-- Whether the fragment `l` (read as `pyFragment` reads it) matches the
characters of `cs` starting at position `i`: each fragment character
equals the line character there, or is `.` with any line character
present. -/
def fragMatchAt (cs : List Char) : List Char → Nat → Bool
  | [], _ => true
  | c :: l, i =>
    (match cs[i]? with
     | some d => c = '.' || d = c
     | none => false) && fragMatchAt cs l (i + 1)

/-- `re.search` through the options compiler: `true` iff the symbol
compiles to a pattern (no exception, not `None`) matching the line. -/
def compiledOptionSearch (sym line : String) : Bool :=
  match create_options_regex sym with
  | .ok (some r) => searchB r line
  | _ => false

/-- `re.search` through the futures compiler: `true` iff the symbol
compiles without an exception to a pattern matching the line. -/
def compiledFuturesSearch (sym line : String) : Bool :=
  match create_futures_regex sym with
  | .ok r => searchB r line
  | _ => false

/-- The sortedness relation of the final output: `x` precedes `y` when
`y`'s source id is not smaller than `x`'s. -/
def pairLe (x y : String × String) : Prop := strLtB y.1 x.1 = false

/-- `re.search` through the message-level compiler: `true` iff the
source id and symbol list compile to a message pattern matching the
line. -/
def dcSearch (sid : String) (syms : List String) (line : String) : Bool :=
  match create_dc_message_level_pattern sid syms with
  | .ok mp => searchB mp line
  | .error _ => false

/-! # Theorems -/

/-! ## Matcher lemmas -/

theorem ends_seq_mem {cs : List Char} {a b : Regex} {i j : Nat} :
    j ∈ ends cs (.seq a b) i ↔ ∃ k, k ∈ ends cs a i ∧ j ∈ ends cs b k := by
  simp [ends, List.mem_flatMap]

theorem ends_alt_mem {cs : List Char} {a b : Regex} {i j : Nat} :
    j ∈ ends cs (.alt a b) i ↔ j ∈ ends cs a i ∨ j ∈ ends cs b i := by
  simp [ends, List.mem_append]

theorem ends_group_eq (cs : List Char) (a : Regex) (i : Nat) :
    ends cs (.group a) i = ends cs a i := by
  simp [ends]

theorem ends_bol_mem {cs : List Char} {i j : Nat} :
    j ∈ ends cs Regex.bol i ↔ i = 0 ∧ j = 0 := by
  by_cases h : i = 0
  · subst h; simp [ends]
  · simp [ends, h]

theorem ends_char_mem {cs : List Char} {c : Char} {i j : Nat} :
    j ∈ ends cs (.char c) i ↔ cs[i]? = some c ∧ j = i + 1 := by
  cases h : cs[i]? with
  | none => simp [ends, h]
  | some d =>
    by_cases hd : d = c
    · subst hd; simp [ends, h]
    · simp [ends, h, hd]

theorem matchesAtB_iff {r : Regex} {s : String} {i : Nat} :
    matchesAtB r s i = true ↔ ends s.data r i ≠ [] := by
  unfold matchesAtB
  cases h : ends s.data r i <;> simp [h]

theorem searchB_iff {r : Regex} {s : String} :
    searchB r s = true ↔ ∃ i, i ≤ s.length ∧ ends s.data r i ≠ [] := by
  unfold searchB
  rw [List.any_eq_true]
  constructor
  · rintro ⟨i, hi, hm⟩
    exact ⟨i, Nat.lt_succ_iff.mp (List.mem_range.mp hi), matchesAtB_iff.mp hm⟩
  · rintro ⟨i, hi, hm⟩
    exact ⟨i, List.mem_range.mpr (Nat.lt_succ_iff.mpr hi), matchesAtB_iff.mpr hm⟩

/-! ## Fragment lemmas -/

theorem ends_fragChar (cs : List Char) (c : Char) (i : Nat) :
    ends cs (fragChar c) i =
      if (match cs[i]? with
          | some d => c = '.' || d = c
          | none => false) then [i + 1] else [] := by
  unfold fragChar
  by_cases hc : c = '.'
  · subst hc
    cases h : cs[i]? with
    | none =>
      have hlen : ¬ i < cs.length := by
        intro hlt
        simp [List.getElem?_eq_getElem hlt] at h
      simp [ends, h, hlen]
    | some d =>
      have hlen : i < cs.length := (List.getElem?_eq_some.mp h).1
      simp [ends, h, hlen]
  · cases h : cs[i]? with
    | none => simp [ends, h, hc]
    | some d => simp [ends, h, hc]

theorem ends_fragSeq (cs : List Char) (l : List Char) (i : Nat) :
    ends cs (fragSeq l) i =
      if fragMatchAt cs l i then [i + l.length] else [] := by
  induction l generalizing i with
  | nil => simp [fragSeq, fragMatchAt, ends]
  | cons c l ih =>
    show ends cs (.seq (fragChar c) (fragSeq l)) i = _
    have harith : i + (l.length + 1) = (i + 1) + l.length := by omega
    simp only [ends, ends_fragChar]
    by_cases h : (match cs[i]? with
        | some d => c = '.' || d = c
        | none => false) = true
    · simp only [h, if_true, List.flatMap_cons, List.flatMap_nil,
        List.append_nil, ih]
      simp only [fragMatchAt, h, Bool.true_and, List.length_cons, harith]
    · simp only [Bool.not_eq_true] at h
      simp only [h, Bool.false_eq_true, if_false, List.flatMap_nil]
      simp only [fragMatchAt, h, Bool.false_and, Bool.false_eq_true, if_false]

theorem fragMatchAt_nodot {cs l : List Char} {i : Nat}
    (hd : '.' ∉ l) (h : fragMatchAt cs l i = true) :
    (cs.drop i).take l.length = l := by
  induction l generalizing i with
  | nil => simp
  | cons c l ih =>
    unfold fragMatchAt at h
    rw [Bool.and_eq_true] at h
    obtain ⟨h1, h2⟩ := h
    cases hg : cs[i]? with
    | none => rw [hg] at h1; simp at h1
    | some d =>
      rw [hg] at h1
      have hc : c ≠ '.' := fun hcc => hd (hcc ▸ List.mem_cons_self c l)
      have h1' : c = '.' ∨ d = c := by simpa using h1
      have hdc : d = c := h1'.resolve_left hc
      have hlt : i < cs.length := (List.getElem?_eq_some.mp hg).1
      rw [List.drop_eq_getElem_cons hlt]
      have hget : cs[i] = d := by
        have := List.getElem?_eq_some.mp hg
        exact this.2
      simp only [List.length_cons, List.take_succ_cons, hget, hdc]
      exact congrArg (c :: ·) (ih (fun hm => hd (List.mem_cons_of_mem c hm)) h2)

/-! ## Scan lemmas -/

theorem scanFrom_some {cs : List Char} {r : Regex} {i fuel a b : Nat}
    (h : scanFrom cs r i fuel = some (a, b)) :
    i ≤ a ∧ a < i + fuel ∧ (∃ tl, ends cs r a = b :: tl) ∧
      ∀ k, i ≤ k → k < a → ends cs r k = [] := by
  induction fuel generalizing i with
  | zero => simp [scanFrom] at h
  | succ fuel ih =>
    unfold scanFrom at h
    cases he : ends cs r i with
    | cons j tl =>
      rw [he] at h
      simp only [Option.some.injEq, Prod.mk.injEq] at h
      obtain ⟨rfl, rfl⟩ := h
      exact ⟨Nat.le_refl _, by omega, ⟨tl, he⟩, fun k hk1 hk2 => absurd hk1 (by omega)⟩
    | nil =>
      rw [he] at h
      obtain ⟨h1, h2, h3, h4⟩ := ih h
      refine ⟨by omega, by omega, h3, fun k hk1 hk2 => ?_⟩
      rcases Nat.eq_or_lt_of_le hk1 with rfl | hlt
      · exact he
      · exact h4 k hlt hk2

theorem firstMatchStr_some {r : Regex} {s m : String}
    (h : firstMatchStr r s = some m) :
    ∃ i j tl, ends s.data r i = j :: tl ∧ m = sliceStr s i j ∧
      ∀ k, k < i → ends s.data r k = [] := by
  unfold firstMatchStr firstSpan at h
  cases hs : scanFrom s.data r 0 (s.length + 1) with
  | none => rw [hs] at h; simp at h
  | some pr =>
    obtain ⟨i, j⟩ := pr
    rw [hs] at h
    simp at h
    obtain ⟨_, _, ⟨tl, hends⟩, hmin⟩ := scanFrom_some hs
    exact ⟨i, j, tl, hends, h.symm, fun k hk => hmin k (Nat.zero_le k) hk⟩

/-! ## Alternation lemmas -/

theorem altChain_singleton (r : Regex) : altChain [r] = r := rfl

theorem ends_altChain_mem {cs : List Char} {rs : List Regex} {i j : Nat}
    (h : rs ≠ []) :
    j ∈ ends cs (altChain rs) i ↔ ∃ r ∈ rs, j ∈ ends cs r i := by
  induction rs with
  | nil => exact absurd rfl h
  | cons r rest ih =>
    cases rest with
    | nil => rw [altChain_singleton]; simp
    | cons r2 t =>
      show j ∈ ends cs (.alt r (altChain (r2 :: t))) i ↔ _
      rw [ends_alt_mem, ih (by simp)]
      simp

theorem searchB_group_altChain {rs : List Regex} {s : String} (h : rs ≠ []) :
    searchB (.group (altChain rs)) s = true ↔ ∃ r ∈ rs, searchB r s = true := by
  constructor
  · intro hs
    obtain ⟨i, hi, hne⟩ := searchB_iff.mp hs
    rw [ends_group_eq] at hne
    obtain ⟨j, hj⟩ := List.exists_mem_of_ne_nil _ hne
    obtain ⟨r, hr, hjr⟩ := (ends_altChain_mem h).mp hj
    exact ⟨r, hr, searchB_iff.mpr ⟨i, hi, fun hnil => by simp [hnil] at hjr⟩⟩
  · rintro ⟨r, hr, hs⟩
    obtain ⟨i, hi, hne⟩ := searchB_iff.mp hs
    obtain ⟨j, hj⟩ := List.exists_mem_of_ne_nil _ hne
    refine searchB_iff.mpr ⟨i, hi, ?_⟩
    rw [ends_group_eq]
    have : j ∈ ends s.data (altChain rs) i :=
      (ends_altChain_mem h).mpr ⟨r, hr, hj⟩
    exact fun hnil => by simp [hnil] at this

/-! ## Compilation-pipeline lemmas -/

theorem joinOpts_map_some (rs : List Regex) : joinOpts (rs.map some) = some rs := by
  induction rs with
  | nil => rfl
  | cons r rest ih => simp [joinOpts, ih]

theorem joinOpts_none_of_mem {opts : List (Option Regex)} (h : none ∈ opts) :
    joinOpts opts = none := by
  induction opts with
  | nil => simp at h
  | cons o rest ih =>
    cases o with
    | none => rfl
    | some r =>
      rcases List.mem_cons.mp h with h' | h'
      · exact absurd h' (by simp)
      · simp [joinOpts, ih h']

theorem compileEach_length {l : List String} {opts : List (Option Regex)}
    (h : compileEach l = .ok opts) : opts.length = l.length := by
  induction l generalizing opts with
  | nil => simp [compileEach] at h; simp [← h]
  | cons s rest ih =>
    unfold compileEach at h
    cases h1 : create_specific_instrument_regex s with
    | error e => rw [h1] at h; simp at h
    | ok o =>
      rw [h1] at h
      cases h2 : compileEach rest with
      | error e => rw [h2] at h; simp at h
      | ok os =>
        rw [h2] at h
        simp only [Except.ok.injEq] at h
        simp [← h, ih h2]

theorem compileEach_ok_of_forall {l : List String}
    (h : ∀ t ∈ l, ∃ o, create_specific_instrument_regex t = .ok o) :
    ∃ opts, compileEach l = .ok opts := by
  induction l with
  | nil => exact ⟨[], rfl⟩
  | cons s rest ih =>
    obtain ⟨o, ho⟩ := h s (List.mem_cons_self s rest)
    obtain ⟨opts, hopts⟩ := ih (fun t ht => h t (List.mem_cons_of_mem s ht))
    exact ⟨o :: opts, by simp [compileEach, ho, hopts]⟩

theorem compileEach_none_mem {l : List String} {s : String} (hmem : s ∈ l)
    (hok : ∀ t ∈ l, ∃ o, create_specific_instrument_regex t = .ok o)
    (hs : create_specific_instrument_regex s = .ok none) :
    ∃ opts, compileEach l = .ok opts ∧ none ∈ opts := by
  induction l with
  | nil => simp at hmem
  | cons t rest ih =>
    obtain ⟨o, ho⟩ := hok t (List.mem_cons_self t rest)
    obtain ⟨opts, hopts⟩ := compileEach_ok_of_forall
      (fun u hu => hok u (List.mem_cons_of_mem t hu))
    rcases List.mem_cons.mp hmem with rfl | hmem'
    · have hnone : o = none := by
        rw [ho] at hs
        injection hs
      subst hnone
      exact ⟨none :: opts, by simp [compileEach, ho, hopts]⟩
    · obtain ⟨opts2, hopts2, hn⟩ := ih hmem'
        (fun u hu => hok u (List.mem_cons_of_mem t hu))
      exact ⟨o :: opts2, by simp [compileEach, ho, hopts2], List.mem_cons_of_mem o hn⟩

/-- **C1, counterexample.**  For the unrecognised prefix `Z`, the
per-symbol compiler silently yields `None` (no pattern), and the overall
compilation for the source fails — but with the `TypeError` that
`'|'.join` raises on the `None` entry, not with the dedicated
`UnsupportedInstrumentType` error the claim names. -/
theorem unsupported_prefix_counterexample :
    create_specific_instrument_regex "Z:ABC" = .ok none ∧
    create_instrument_level_pattern ["Z:ABC"] = .error .typeError ∧
    PyError.typeError ≠ PyError.unsupportedInstrumentType :=
  ⟨rfl, rfl, by decide⟩

/-- **C2, counterexample.**  The equity root `E:AB.X` contains the
metacharacter `.`; the compiler does not escape it, so the compiled
pattern matches the line `E:ABQX`, which does not contain the root as
literal text. -/
theorem unescaped_dot_counterexample :
    searchB (create_equity_regex "E:AB.X") "E:ABQX" = true := rfl

/-- **C2, amended.**  The compiler escapes nothing it interpolates: the
backslash separators are emitted as escaped backslashes and match
literally, but a `.` occurring in a root or strike keeps its
any-character meaning, so the compiled pattern also matches lines where
that position holds a different character. -/
theorem unescaped_fragments_semantics :
    searchB (create_equity_regex "E:AB.X") "E:AB.X" = true ∧
    searchB (create_equity_regex "E:AB.X") "E:ABQX" = true ∧
    compiledOptionSearch "O:PRY\\A21\\17.0" "O:PRY\\A21\\17.0" = true ∧
    compiledOptionSearch "O:PRY\\A21\\17.0" "O:PRY\\A21\\17X0" = true ∧
    compiledFuturesSearch "F:FDAX\\H21" "F:FDAX\\H21" = true ∧
    compiledFuturesSearch "F:FDAX\\H21" "F:FDAXxH21" = false :=
  ⟨rfl, rfl, rfl, rfl, rfl, rfl⟩

/-- **C3, counterexample.**  The wildcard futures pattern for `X\*`
requires two to four digits after the month letter, so it does not match
the line `X\M9` (nor a longer line whose maturity token is `X\M9`). -/
theorem futures_wildcard_m9_counterexample :
    compiledFuturesSearch "X\\*" "X\\M9" = false ∧
    compiledFuturesSearch "X\\*" "DC|1|X\\M9|" = false :=
  ⟨rfl, rfl⟩

/-- **C3, amended.**  The compiled futures pattern for `X\*` matches
lines containing `X\H21` and `X\Z20`, but not `X\M9` (its maturity
matcher requires 2–4 digits after the month letter), and neither a line
containing only `X\21` nor one containing only `XY\H21`. -/
theorem futures_wildcard_match_set :
    compiledFuturesSearch "X\\*" "X\\H21" = true ∧
    compiledFuturesSearch "X\\*" "DC|1|X\\H21|99" = true ∧
    compiledFuturesSearch "X\\*" "X\\Z20" = true ∧
    compiledFuturesSearch "X\\*" "X\\M9" = false ∧
    compiledFuturesSearch "X\\*" "X\\21" = false ∧
    compiledFuturesSearch "X\\*" "XY\\H21" = false :=
  ⟨rfl, rfl, rfl, rfl, rfl, rfl⟩

/-- **C4.**  The fixed-income pattern ends in the mandatory
`[a-zA-Z0-9]{1,10}`, so — contrary to the claim, to the specification's
"optionally `@` + 1–10 alphanumerics", and to the function's own
docstring ("matches the input symbol as well as all the optional
components") — a line containing the bare root is not matched: after the
whole-word root and the optional `\`, `D` and `@` markers, at least one
alphanumeric character is required. -/
theorem fixed_income_bare_root_eval :
    searchB (create_fixed_income_regex "B:01NU") "B:01NU" = false ∧
    searchB (create_fixed_income_regex "B:01NU") "DC|2256|B:01NU|470" = false ∧
    searchB (create_fixed_income_regex "B:01NU") "B:01NU\\X2" = true ∧
    searchB (create_fixed_income_regex "B:01NU") "B:01NU@a1" = true :=
  ⟨rfl, rfl, rfl, rfl⟩


/-- **C1, amended.**  A symbol whose prefix matches none of the six
recognised letters makes `create_specific_instrument_regex` silently
return `None` (no pattern and no exception), and the overall compilation
of any symbol list containing it (in which no symbol raises on its own)
fails — but as the generic `TypeError` raised by `'|'.join` on the `None`
entry, not as a dedicated `UnsupportedInstrumentType` error.  The failure
does propagate to the caller, so the instrument is not silently
dropped. -/
theorem unrecognised_prefix_fails (s : String) (l : List String)
    (hB : startsWithChar s 'B' = false) (hE : startsWithChar s 'E' = false)
    (hF : startsWithChar s 'F' = false) (hI : startsWithChar s 'I' = false)
    (hO : startsWithChar s 'O' = false) (hR : startsWithChar s 'R' = false)
    (hmem : s ∈ l)
    (hok : ∀ t ∈ l, ∃ o, create_specific_instrument_regex t = .ok o) :
    create_specific_instrument_regex s = .ok none ∧
    create_instrument_level_pattern l = .error .typeError := by
  have hs : create_specific_instrument_regex s = .ok none := by
    simp [create_specific_instrument_regex, hB, hE, hF, hI, hO, hR]
  obtain ⟨opts, hopts, hnone⟩ := compileEach_none_mem hmem hok hs
  refine ⟨hs, ?_⟩
  unfold create_instrument_level_pattern
  rw [hopts]
  simp [joinOpts_none_of_mem hnone]

/-- **C1, witness.**  The amended statement at the concrete symbol
`Z:ABC`. -/
theorem unrecognised_prefix_fails_witness :
    create_specific_instrument_regex "Z:ABC" = .ok none ∧
    create_instrument_level_pattern ["Z:ABC"] = .error .typeError :=
  unrecognised_prefix_fails "Z:ABC" ["Z:ABC"] rfl rfl rfl rfl rfl rfl
    (List.mem_singleton.mpr rfl)
    (fun t ht => ⟨none, by rw [List.mem_singleton.mp ht]; rfl⟩)

/-- **C5.**  For every non-empty list of instrument symbols each of which
compiles to a pattern, `create_instrument_level_pattern` returns the
single parenthesised disjunction of the per-symbol patterns in input
order, and a string matches the combined pattern iff it matches at least
one of the individually compiled patterns. -/
theorem instrument_level_pattern_union (l : List String) (rs : List Regex)
    (line : String) (hne : l ≠ [])
    (hc : compileEach l = .ok (rs.map some)) :
    create_instrument_level_pattern l = .ok (.group (altChain rs)) ∧
    (searchB (.group (altChain rs)) line = true ↔
      ∃ r ∈ rs, searchB r line = true) := by
  have hrs : rs ≠ [] := by
    intro hempty
    subst hempty
    have hlen := compileEach_length hc
    simp at hlen
    exact hne (List.length_eq_zero.mp hlen.symm)
  refine ⟨?_, searchB_group_altChain hrs⟩
  unfold create_instrument_level_pattern
  rw [hc]
  simp [joinOpts_map_some]

/-- **C5, witness.**  The union statement at the two-symbol list
`[I:KOSPI200, E:VOD]` and the line `E:VOD`. -/
theorem instrument_level_pattern_union_witness :
    create_instrument_level_pattern ["I:KOSPI200", "E:VOD"] =
      .ok (.group (altChain [create_index_regex "I:KOSPI200",
        create_equity_regex "E:VOD"])) ∧
    (searchB (.group (altChain [create_index_regex "I:KOSPI200",
        create_equity_regex "E:VOD"])) "E:VOD" = true ↔
      ∃ r ∈ [create_index_regex "I:KOSPI200", create_equity_regex "E:VOD"],
        searchB r "E:VOD" = true) :=
  instrument_level_pattern_union ["I:KOSPI200", "E:VOD"]
    [create_index_regex "I:KOSPI200", create_equity_regex "E:VOD"]
    "E:VOD" (by simp) rfl

/-- **C10.**  `create_options_regex` on a non-wildcard symbol reads the
first three backslash-separated segments: with fewer than three segments
the positional access raises `IndexError`, with at least three it returns
the pattern built from the first three.  On a `*`-terminated symbol whose
segment count is neither 2 nor 3 it falls through every branch and
returns `None`. -/
theorem options_segment_arity (s : String) :
    (endsWithChar s '*' = false →
      (((splitStr '\\' s).length < 3 →
          create_options_regex s = .error .indexError) ∧
        (∀ c0 c1 c2 rest, splitStr '\\' s = c0 :: c1 :: c2 :: rest →
          create_options_regex s = .ok (some (seqList [pyFragment c0,
            .char '\\', pyFragment c1, .char '\\', pyFragment c2]))))) ∧
    (endsWithChar s '*' = true → (splitStr '\\' s).length ≠ 2 →
      (splitStr '\\' s).length ≠ 3 → create_options_regex s = .ok none) := by
  constructor
  · intro hw
    constructor
    · intro hlen
      unfold create_options_regex
      rw [hw]
      rcases hsplit : splitStr '\\' s with _ | ⟨c0, _ | ⟨c1, _ | ⟨c2, rest⟩⟩⟩ <;>
        simp [hsplit] at hlen ⊢
      omega
    · intro c0 c1 c2 rest hsplit
      unfold create_options_regex
      rw [hw, hsplit]
      rfl
  · intro hw h2 h3
    unfold create_options_regex
    rw [hw]
    rcases hsplit : splitStr '\\' s with _ | ⟨c0, _ | ⟨c1, _ | ⟨c2, _ | ⟨c3, rest⟩⟩⟩⟩ <;>
      simp [hsplit] at h2 h3 ⊢

/-- **C10, witness.**  The three arities at concrete option symbols:
a one-segment non-wildcard symbol raises `IndexError`, a three-segment
literal symbol compiles from its three segments, and a four-segment
wildcard symbol yields `None`. -/
theorem options_segment_arity_witness :
    create_options_regex "O:PRY" = .error .indexError ∧
    create_options_regex "O:PRY\\A21\\17.0" = .ok (some (seqList
      [pyFragment "O:PRY", .char '\\', pyFragment "A21", .char '\\',
        pyFragment "17.0"])) ∧
    create_options_regex "O:A\\B\\C\\D*" = .ok none :=
  ⟨((options_segment_arity "O:PRY").1 rfl).1 (by decide),
    ((options_segment_arity "O:PRY\\A21\\17.0").1 rfl).2
      "O:PRY" "A21" "17.0" [] (by decide),
    (options_segment_arity "O:A\\B\\C\\D*").2 rfl (by decide) (by decide)⟩

/-! ## Extractor lemmas -/

theorem collectLines_eq (path sid : String) (mp ip : Regex)
    (lines : List String)
    (hsid : get_source_id_from_file_path path = .ok sid)
    (hm : ∀ l ∈ lines, searchB mp l = true → (firstMatchStr ip l).isSome) :
    collectLines path mp ip lines = .ok (lines.filterMap (fun l =>
      if searchB mp l = true then
        (firstMatchStr ip l).map (fun m => (sid, m))
      else none)) := by
  induction lines with
  | nil => rfl
  | cons line rest ih =>
    have hrest := ih (fun l hl => hm l (List.mem_cons_of_mem line hl))
    by_cases hsearch : searchB mp line = true
    · cases hfm : firstMatchStr ip line with
      | none =>
        have := hm line (List.mem_cons_self line rest) hsearch
        rw [hfm] at this
        simp at this
      | some m =>
        simp [collectLines, extractLine, hsearch, hsid, hfm, hrest,
          List.filterMap_cons]
    · simp [collectLines, extractLine, hsearch, hrest, List.filterMap_cons]

/-- **C7.**  For each line of the decoded file, in file order and
independently: a line matching the message-level pattern contributes
exactly one pair, whose symbol component is the text of the first match
of the symbol-level pattern (leftmost start position, first end in
backtracking order), and a line not matching the message-level pattern
contributes nothing. -/
theorem extractor_per_line (path sid : String) (mp ip : Regex)
    (lines : List String)
    (hsid : get_source_id_from_file_path path = .ok sid)
    (hm : ∀ l ∈ lines, searchB mp l = true → (firstMatchStr ip l).isSome) :
    retrieve_source_symbol_pairs path (.ok lines) mp ip =
      .ok (lines.filterMap (fun l =>
        if searchB mp l = true then
          (firstMatchStr ip l).map (fun m => (sid, m))
        else none)) ∧
    (∀ l m, firstMatchStr ip l = some m →
      ∃ i j tl, ends l.data ip i = j :: tl ∧ m = sliceStr l i j ∧
        ∀ k, k < i → ends l.data ip k = []) :=
  ⟨collectLines_eq path sid mp ip lines hsid hm,
    fun _ _ h => firstMatchStr_some h⟩

/-- **C7, witness.**  The per-line extraction equation at a concrete
two-line file: the first line matches and contributes one pair from its
first symbol-level match, the second line does not match and contributes
nothing. -/
theorem extractor_per_line_witness :
    retrieve_source_symbol_pairs "COREREF_207_20201023.txt.bz2"
      (.ok ["DC|207|FDAX|1", "XX|207|FDAX|1"])
      (seqList [.bol, .char 'D', .char 'C']) (pyFragment "FDAX") =
      .ok ((["DC|207|FDAX|1", "XX|207|FDAX|1"] : List String).filterMap
        (fun l =>
          if searchB (seqList [.bol, .char 'D', .char 'C']) l = true then
            (firstMatchStr (pyFragment "FDAX") l).map (fun m => ("207", m))
          else none)) ∧
    (∀ l m, firstMatchStr (pyFragment "FDAX") l = some m →
      ∃ i j tl, ends l.data (pyFragment "FDAX") i = j :: tl ∧
        m = sliceStr l i j ∧
        ∀ k, k < i → ends l.data (pyFragment "FDAX") k = []) :=
  extractor_per_line "COREREF_207_20201023.txt.bz2" "207"
    (seqList [.bol, .char 'D', .char 'C']) (pyFragment "FDAX")
    ["DC|207|FDAX|1", "XX|207|FDAX|1"] rfl (by decide)

/-! ## Batch lemmas -/

theorem collectPairs_append (dict : List (String × List String))
    (xs ys : List (String × Except Unit (List String))) :
    collectPairs dict (xs ++ ys) =
      match collectPairs dict xs with
      | .error e => .error e
      | .ok a =>
        match collectPairs dict ys with
        | .error e => .error e
        | .ok b => .ok (a ++ b) := by
  induction xs with
  | nil =>
    cases h : collectPairs dict ys <;> simp [collectPairs, h]
  | cons f xs ih =>
    obtain ⟨path, content⟩ := f
    show collectPairs dict ((path, content) :: (xs ++ ys)) = _
    cases hsid : get_source_id_from_file_path path with
    | error e => simp [collectPairs, hsid]
    | ok sid =>
      by_cases hskip : (retrieve_instruments sid dict).isNone
      · simp [collectPairs, hsid, hskip, ih]
      · cases hp : process_coreref_file path content dict with
        | error e => simp [collectPairs, hsid, hskip, hp]
        | ok pairs =>
          cases hxs : collectPairs dict xs with
          | error e => simp [collectPairs, hsid, hskip, hp, ih, hxs]
          | ok a =>
            cases hys : collectPairs dict ys with
            | error e => simp [collectPairs, hsid, hskip, hp, ih, hxs, hys]
            | ok b => simp [collectPairs, hsid, hskip, hp, ih, hxs, hys]

/-- **C8.**  When the input file cannot be opened or decompressed (the
`OSError` case of `bz2`), and the batch reaches that file (all previous
files processed without failing, the file's source id is requested and
its symbols compile), the whole batch terminates with the `sys.exit`
outcome whose message names the offending path, its actual extension and
the expected `.bz2` extension — an abort of the run, so no pair list is
returned at all. -/
theorem file_error_aborts_batch
    (pre post : List (String × Except Unit (List String)))
    (path : String) (dict : List (String × List String))
    (prePairs : List (String × String)) (sid : String)
    (syms : List String) (ip : Regex)
    (hpre : collectPairs dict pre = .ok prePairs)
    (hsid : get_source_id_from_file_path path = .ok sid)
    (hsyms : retrieve_instruments sid dict = some syms)
    (hip : create_instrument_level_pattern syms = .ok ip) :
    retrieve_source_symbol_pairs path (.error ())
        (seqList [.bol, .char 'D', .char 'C', .char '|', pyFragment sid,
          .char '|', ip]) ip =
      .error (.exit (exitMessage path)) ∧
    process_all_coreref_files (pre ++ (path, .error ()) :: post) dict =
      .error (.exit (exitMessage path)) ∧
    exitMessage path = "Process finished with exit code 1\nAttempted to process: "
      ++ path ++ "\nThe file has extension:'" ++ pathSuffix path
      ++ "'. Expected:'.bz2'" := by
  refine ⟨rfl, ?_, rfl⟩
  have hproc : process_coreref_file path (.error ()) dict =
      .error (.exit (exitMessage path)) := by
    simp [process_coreref_file, create_dc_message_level_pattern, hsid, hsyms,
      hip, Except.map]
    rfl
  have hbad : collectPairs dict
      ((path, (.error () : Except Unit (List String))) :: post) =
      .error (.exit (exitMessage path)) := by
    simp [collectPairs, hsid, hsyms, hproc]
  simp [process_all_coreref_files, collectPairs_append, hpre, hbad,
    Except.map]

/-- **C8, witness.**  The abort at a concrete unreadable file with a
`.txt` extension, as the only file of the batch. -/
theorem file_error_aborts_batch_witness :
    retrieve_source_symbol_pairs "data/COREREF_207_20201023.txt" (.error ())
        (seqList [.bol, .char 'D', .char 'C', .char '|', pyFragment "207",
          .char '|', .group (altChain [create_index_regex "I:X"])])
        (.group (altChain [create_index_regex "I:X"])) =
      .error (.exit (exitMessage "data/COREREF_207_20201023.txt")) ∧
    process_all_coreref_files
        ([] ++ ("data/COREREF_207_20201023.txt",
          (.error () : Except Unit (List String))) :: [])
        [("207", ["I:X"])] =
      .error (.exit (exitMessage "data/COREREF_207_20201023.txt")) ∧
    exitMessage "data/COREREF_207_20201023.txt" =
      "Process finished with exit code 1\nAttempted to process: "
        ++ "data/COREREF_207_20201023.txt" ++ "\nThe file has extension:'"
        ++ pathSuffix "data/COREREF_207_20201023.txt" ++ "'. Expected:'.bz2'" :=
  file_error_aborts_batch [] [] "data/COREREF_207_20201023.txt"
    [("207", ["I:X"])] [] "207" ["I:X"]
    (.group (altChain [create_index_regex "I:X"])) rfl rfl rfl rfl

/-! ## Sorting lemmas -/

theorem listLt_cons_eq (a0 b0 : Char) (as bs : List Char) :
    listLt (a0 :: as) (b0 :: bs) =
      if a0 < b0 then true else if b0 < a0 then false else listLt as bs := by
  simp [listLt]

theorem listLt_cons_false {a0 b0 : Char} {as bs : List Char} :
    listLt (a0 :: as) (b0 :: bs) = false ↔
      ¬ a0 < b0 ∧ (b0 < a0 ∨ listLt as bs = false) := by
  rw [listLt_cons_eq]
  by_cases h1 : a0 < b0
  · simp [h1]
  · by_cases h2 : b0 < a0
    · simp [h1, h2]
    · simp [h1, h2]

theorem listLt_cons_true {a0 b0 : Char} {as bs : List Char} :
    listLt (a0 :: as) (b0 :: bs) = true ↔
      a0 < b0 ∨ (¬ b0 < a0 ∧ listLt as bs = true) := by
  rw [listLt_cons_eq]
  by_cases h1 : a0 < b0
  · simp [h1]
  · by_cases h2 : b0 < a0
    · simp [h1, h2]
    · simp [h1, h2]

theorem listLt_irrefl (a : List Char) : listLt a a = false := by
  induction a with
  | nil => rfl
  | cons c cs ih => simp [listLt, lt_self_iff_false, ih]

theorem listLt_asymm {a b : List Char} (h : listLt a b = true) :
    listLt b a = false := by
  induction a generalizing b with
  | nil =>
    cases b with
    | nil => simp [listLt] at h
    | cons c cs => rfl
  | cons c cs ih =>
    cases b with
    | nil => simp [listLt] at h
    | cons d ds =>
      rw [listLt_cons_false]
      rcases listLt_cons_true.mp h with h1 | ⟨h2, h3⟩
      · exact ⟨lt_asymm h1, Or.inl h1⟩
      · exact ⟨h2, Or.inr (ih h3)⟩

theorem listLt_false_trans : ∀ {a b c : List Char}, listLt a b = false →
    listLt b c = false → listLt a c = false := by
  intro a
  induction a with
  | nil =>
    intro b c hab hbc
    cases b with
    | nil => exact hbc
    | cons b0 bs => simp [listLt] at hab
  | cons a0 as ih =>
    intro b c hab hbc
    cases c with
    | nil =>
      cases b with
      | nil => exact hab
      | cons b0 bs => rfl
    | cons c0 cs =>
      cases b with
      | nil => simp [listLt] at hbc
      | cons b0 bs =>
        obtain ⟨hab1, hab2⟩ := listLt_cons_false.mp hab
        obtain ⟨hbc1, hbc2⟩ := listLt_cons_false.mp hbc
        have hba : b0 ≤ a0 := not_lt.mp hab1
        have hcb : c0 ≤ b0 := not_lt.mp hbc1
        rw [listLt_cons_false]
        refine ⟨not_lt.mpr (hcb.trans hba), ?_⟩
        by_cases hca : c0 < a0
        · exact Or.inl hca
        · have hac : a0 ≤ c0 := not_lt.mp hca
          have heq : a0 = c0 := le_antisymm hac (hcb.trans hba)
          have heqb : b0 = a0 := le_antisymm (hba) (heq ▸ hcb)
          have h1 : listLt as bs = false := by
            rcases hab2 with h' | h'
            · exact absurd h' (by rw [heqb]; exact lt_irrefl a0)
            · exact h'
          have h2 : listLt bs cs = false := by
            rcases hbc2 with h' | h'
            · exact absurd h' (by rw [heqb, heq]; exact lt_irrefl c0)
            · exact h'
          exact Or.inr (ih h1 h2)

theorem insertPair_perm (x : String × String) (l : List (String × String)) :
    (insertPair x l).Perm (x :: l) := by
  induction l with
  | nil => exact List.Perm.refl _
  | cons y ys ih =>
    unfold insertPair
    by_cases h : strLtB y.1 x.1 = true
    · simp only [h, if_true]
      exact (ih.cons y).trans (List.Perm.swap x y ys)
    · rw [if_neg h]

theorem sortPairs_perm (l : List (String × String)) : (sortPairs l).Perm l := by
  induction l with
  | nil => exact List.Perm.refl _
  | cons a l ih =>
    show (insertPair a (sortPairs l)).Perm (a :: l)
    exact (insertPair_perm a (sortPairs l)).trans (ih.cons a)

theorem insertPair_pairwise {x : String × String} {l : List (String × String)}
    (h : l.Pairwise pairLe) : (insertPair x l).Pairwise pairLe := by
  induction l with
  | nil => simp [insertPair, pairLe]
  | cons y ys ih =>
    rw [List.pairwise_cons] at h
    obtain ⟨hy, hys⟩ := h
    unfold insertPair
    by_cases hc : strLtB y.1 x.1 = true
    · simp only [hc, if_true]
      rw [List.pairwise_cons]
      refine ⟨?_, ih hys⟩
      intro z hz
      have hz' : z = x ∨ z ∈ ys := by
        simpa using (insertPair_perm x ys).mem_iff.mp hz
      rcases hz' with rfl | hz'
      · exact listLt_asymm hc
      · exact hy z hz'
    · rw [if_neg (by simpa using hc)]
      rw [List.pairwise_cons]
      constructor
      · intro z hz
        rcases List.mem_cons.mp hz with rfl | hz'
        · simpa [pairLe] using hc
        · exact listLt_false_trans (hy z hz') (by simpa using hc)
      · exact List.pairwise_cons.mpr ⟨hy, hys⟩

theorem sortPairs_pairwise (l : List (String × String)) :
    (sortPairs l).Pairwise pairLe := by
  induction l with
  | nil => simp [sortPairs]
  | cons a l ih => exact insertPair_pairwise ih

theorem insertPair_filter (x : String × String) (l : List (String × String))
    (k : String) :
    (insertPair x l).filter (fun pr => pr.1 == k) =
      if x.1 == k then x :: l.filter (fun pr => pr.1 == k)
      else l.filter (fun pr => pr.1 == k) := by
  induction l with
  | nil => cases hxk : x.1 == k <;> simp [insertPair, List.filter, hxk]
  | cons y ys ih =>
    unfold insertPair
    by_cases hc : strLtB y.1 x.1 = true
    · simp only [hc, if_true]
      by_cases hxk : (x.1 == k) = true
      · by_cases hyk : (y.1 == k) = true
        · exfalso
          have h1 : y.1 = k := eq_of_beq hyk
          have h2 : x.1 = k := eq_of_beq hxk
          rw [h1, show k = x.1 from h2.symm] at hc
          exact absurd hc (by simp [strLtB, listLt_irrefl])
        · simp [List.filter_cons, hyk, hxk, ih]
      · by_cases hyk : (y.1 == k) = true
        · simp [List.filter_cons, hyk, hxk, ih]
        · simp [List.filter_cons, hyk, hxk, ih]
    · rw [if_neg (by simpa using hc)]
      by_cases hxk : (x.1 == k) = true
      · simp [List.filter_cons, hxk]
      · simp [List.filter_cons, hxk]

theorem sortPairs_filter (l : List (String × String)) (k : String) :
    (sortPairs l).filter (fun pr => pr.1 == k) =
      l.filter (fun pr => pr.1 == k) := by
  induction l with
  | nil => rfl
  | cons a l ih =>
    show (insertPair a (sortPairs l)).filter (fun pr => pr.1 == k) = _
    rw [insertPair_filter]
    by_cases hak : (a.1 == k) = true
    · simp [List.filter_cons, hak, ih]
    · simp [List.filter_cons, hak, ih]

/-- **C9.**  `process_all_coreref_files` returns the concatenation of the
per-file discovered pairs (in file order, skipping files whose source id
was not requested), stably sorted in ascending lexicographic order of the
source-id string: the result is a permutation of the concatenation,
sorted by source id, and for every source id the subsequence of its pairs
equals their per-file discovery order. -/
theorem batch_sorted_stable (files : List (String × Except Unit (List String)))
    (dict : List (String × List String)) (flat : List (String × String))
    (hc : collectPairs dict files = .ok flat) :
    process_all_coreref_files files dict = .ok (sortPairs flat) ∧
    (sortPairs flat).Perm flat ∧
    (sortPairs flat).Pairwise pairLe ∧
    (∀ id, (sortPairs flat).filter (fun pr => pr.1 == id) =
      flat.filter (fun pr => pr.1 == id)) :=
  ⟨by simp [process_all_coreref_files, hc, Except.map],
    sortPairs_perm flat, sortPairs_pairwise flat,
    fun id => sortPairs_filter flat id⟩

/-- **C9, witness.**  Two files for sources 367 and 207 processed in that
order: the aggregation yields the pairs in file order, and the final
result is sorted with the 207 entry before the 367 entry. -/
theorem batch_sorted_stable_witness :
    process_all_coreref_files
        [("COREREF_367_20201016.txt.bz2",
          (.ok ["DC|367|I:A|x"] : Except Unit (List String))),
          ("COREREF_207_20201016.txt.bz2",
          (.ok ["DC|207|I:B|x"] : Except Unit (List String)))]
        [("367", ["I:A"]), ("207", ["I:B"])] =
      .ok (sortPairs [("367", "I:A"), ("207", "I:B")]) ∧
    (sortPairs [("367", "I:A"), ("207", "I:B")]).Perm
      [("367", "I:A"), ("207", "I:B")] ∧
    (sortPairs [("367", "I:A"), ("207", "I:B")]).Pairwise pairLe ∧
    (∀ id, (sortPairs [("367", "I:A"), ("207", "I:B")]).filter
        (fun pr => pr.1 == id) =
      ([("367", "I:A"), ("207", "I:B")] : List (String × String)).filter
        (fun pr => pr.1 == id)) ∧
    sortPairs [("367", "I:A"), ("207", "I:B")] =
      [("207", "I:B"), ("367", "I:A")] :=
  by
  have h := batch_sorted_stable
    [("COREREF_367_20201016.txt.bz2",
      (.ok ["DC|367|I:A|x"] : Except Unit (List String))),
      ("COREREF_207_20201016.txt.bz2",
      (.ok ["DC|207|I:B|x"] : Except Unit (List String)))]
    [("367", ["I:A"]), ("207", ["I:B"])]
    [("367", "I:A"), ("207", "I:B")] rfl
  exact ⟨h.1, h.2.1, h.2.2.1, h.2.2.2, rfl⟩

/-! ## Message-level selection lemmas -/

theorem take_prefix_of_chain {cs sidd : List Char}
    (hD : cs[0]? = some 'D') (hC : cs[1]? = some 'C')
    (hP1 : cs[2]? = some '|')
    (hfrag : (cs.drop 3).take sidd.length = sidd)
    (hP2 : cs[3 + sidd.length]? = some '|') :
    cs.take (sidd.length + 4) = 'D' :: 'C' :: '|' :: (sidd ++ ['|']) := by
  cases cs with
  | nil => simp at hD
  | cons x0 cs0 =>
    cases cs0 with
    | nil => simp at hC
    | cons x1 cs1 =>
      cases cs1 with
      | nil => simp at hP1
      | cons x2 rest =>
        have h0 : x0 = 'D' := by simpa using hD
        have h1 : x1 = 'C' := by simpa using hC
        have h2 : x2 = '|' := by simpa using hP1
        subst h0
        subst h1
        subst h2
        have hfrag' : rest.take sidd.length = sidd := hfrag
        have hP2' : rest[sidd.length]? = some '|' := by
          rw [show (3 : Nat) + sidd.length = sidd.length + 1 + 1 + 1 by omega]
            at hP2
          simpa using hP2
        rw [show sidd.length + 4 = (sidd.length + 3) + 1 from rfl,
          List.take_succ_cons,
          show sidd.length + 3 = (sidd.length + 2) + 1 from rfl,
          List.take_succ_cons,
          show sidd.length + 2 = (sidd.length + 1) + 1 from rfl,
          List.take_succ_cons, List.take_succ, hfrag', hP2']
        simp

/-- **C6.**  A line is selected by the message-level pattern only if it
begins, at line start, with the literal marker `DC`, the delimiter `|`,
the exact source id, the delimiter `|`, and then text matching the
symbol-level pattern; consequently, extracting with the symbol set
`{F:FDAX\*}` and source id `207` from a file whose lines are
`DC|207|F:FDAX\H21|...` and `DC|999|F:FDAX\H21|...` yields exactly the
single pair `("207", "F:FDAX\H21")`, the second line being rejected by
the source-id mismatch. -/
theorem dc_message_pattern_selection (sid : String) (syms : List String)
    (line : String)
    (hdot : '.' ∉ sid.data)
    (hsel : dcSearch sid syms line = true) :
    (∃ G, create_instrument_level_pattern syms = .ok G ∧
      line.data.take (sid.data.length + 4) = ("DC|" ++ sid ++ "|").data ∧
      matchesAtB G line (sid.data.length + 4) = true) ∧
    (∃ mp ip, create_dc_message_level_pattern "207" ["F:FDAX\\*"] = .ok mp ∧
      create_instrument_level_pattern ["F:FDAX\\*"] = .ok ip ∧
      retrieve_source_symbol_pairs "COREREF_207_20201023.txt.bz2"
        (.ok ["DC|207|F:FDAX\\H21|...", "DC|999|F:FDAX\\H21|..."]) mp ip =
        .ok [("207", "F:FDAX\\H21")]) := by
  constructor
  · unfold dcSearch create_dc_message_level_pattern at hsel
    cases hG : create_instrument_level_pattern syms with
    | error e => rw [hG] at hsel; simp [Except.map] at hsel
    | ok G =>
      rw [hG] at hsel
      simp only [Except.map] at hsel
      obtain ⟨i, hi, hne⟩ := searchB_iff.mp hsel
      obtain ⟨j, hj⟩ := List.exists_mem_of_ne_nil _ hne
      simp only [seqList] at hj
      rcases ends_seq_mem.mp hj with ⟨k1, hk1, hj2⟩
      obtain ⟨rfl, rfl⟩ := ends_bol_mem.mp hk1
      rcases ends_seq_mem.mp hj2 with ⟨k2, hk2, hj3⟩
      obtain ⟨hD, rfl⟩ := ends_char_mem.mp hk2
      rcases ends_seq_mem.mp hj3 with ⟨k3, hk3, hj4⟩
      obtain ⟨hC, rfl⟩ := ends_char_mem.mp hk3
      rcases ends_seq_mem.mp hj4 with ⟨k4, hk4, hj5⟩
      obtain ⟨hP1, rfl⟩ := ends_char_mem.mp hk4
      rcases ends_seq_mem.mp hj5 with ⟨k5, hk5, hj6⟩
      rw [show pyFragment sid = fragSeq sid.data from rfl, ends_fragSeq]
        at hk5
      cases hfm : fragMatchAt line.data sid.data (0 + 1 + 1 + 1) with
      | false => rw [hfm] at hk5; simp at hk5
      | true =>
        rw [hfm] at hk5
        simp only [if_true] at hk5
        have hk5' : k5 = 0 + 1 + 1 + 1 + sid.data.length := by
          simpa using hk5
        subst hk5'
        rcases ends_seq_mem.mp hj6 with ⟨k6, hk6, hj7⟩
        obtain ⟨hP2, rfl⟩ := ends_char_mem.mp hk6
        rcases ends_seq_mem.mp hj7 with ⟨k7, hk7, hj8⟩
        have hfm3 : fragMatchAt line.data sid.data 3 = true := by
          simpa using hfm
        have hD0 : line.data[0]? = some 'D' := by simpa using hD
        have hC1 : line.data[1]? = some 'C' := by simpa using hC
        have hP12 : line.data[2]? = some '|' := by simpa using hP1
        have hP2' : line.data[3 + sid.data.length]? = some '|' := by
          rw [show (3 : Nat) + sid.data.length = 0 + 1 + 1 + 1
            + sid.data.length by omega]
          exact hP2
        have hfrag : (line.data.drop 3).take sid.data.length = sid.data :=
          fragMatchAt_nodot hdot hfm3
        refine ⟨G, rfl, ?_, ?_⟩
        · have := take_prefix_of_chain hD0 hC1 hP12 hfrag hP2'
          rw [this]
          simp [String.data_append]
        · rw [matchesAtB_iff]
          intro hnil
          have harith : 0 + 1 + 1 + 1 + sid.data.length + 1
              = sid.data.length + 4 := by omega
          rw [harith, hnil] at hk7
          simp at hk7
  · exact ⟨_, _, rfl, rfl, rfl⟩

/-- **C6, witness.**  The selection statement at source id `207`, symbol
set `{F:FDAX\*}` and the line `DC|207|F:FDAX\H21|...`. -/
theorem dc_message_pattern_selection_witness :
    (∃ G, create_instrument_level_pattern ["F:FDAX\\*"] = .ok G ∧
      ("DC|207|F:FDAX\\H21|..." : String).data.take
          (("207" : String).data.length + 4) =
        ("DC|" ++ "207" ++ "|").data ∧
      matchesAtB G "DC|207|F:FDAX\\H21|..."
        (("207" : String).data.length + 4) = true) ∧
    (∃ mp ip, create_dc_message_level_pattern "207" ["F:FDAX\\*"] = .ok mp ∧
      create_instrument_level_pattern ["F:FDAX\\*"] = .ok ip ∧
      retrieve_source_symbol_pairs "COREREF_207_20201023.txt.bz2"
        (.ok ["DC|207|F:FDAX\\H21|...", "DC|999|F:FDAX\\H21|..."]) mp ip =
        .ok [("207", "F:FDAX\\H21")]) :=
  dc_message_pattern_selection "207" ["F:FDAX\\*"] "DC|207|F:FDAX\\H21|..."
    (by decide) rfl

end Watchlist
